import Mathlib

/-!
Verification of the optimizer lab notebook (04-optimizers.ipynb).

The notebook's executable optimizer core is the class SGD_Alternate
(momentum SGD without weight decay), together with the manual
MultiStep learning-rate decay loop and the checkpoint dictionary built
inside train_model.  RMSProp and Adam appear in the notebook only as
formulas and as calls into the external torch.optim library, so those
update rules are modelled from the specification.

Tensors are modelled as flat lists of rationals; every tensor
operation used by the code (in-place mul_/add_/sub_, scalar product)
is element-wise, so List.map / List.zipWith reproduce it exactly.
-/

/-- A tensor, flattened to its list of elements (all notebook tensor
operations are element-wise). -/
abbrev Tensor := List ℚ

/-- One tracked parameter: its current value, its gradient
(`none` models `param.grad is None`), and its entry in the optimizer's
per-parameter state dictionary (`none` models the absence of the
"momentum_buffer" key in `self.state[param]`). -/
structure ParamEntry where
  value : Tensor
  grad : Option Tensor
  momentum_buffer : Option Tensor
  deriving Repr, DecidableEq

/-- A parameter group of SGD_Alternate: its parameters together with
the hyperparameters "lr" and "momentum" stored in the group dict. -/
structure ParamGroup where
  params : List ParamEntry
  lr : ℚ
  momentum : ℚ
  deriving Repr, DecidableEq

/-- The SGD_Alternate optimizer: its param_groups (the per-parameter
state dict self.state is folded into each ParamEntry, keyed as in the
code by parameter identity). -/
structure SGD_Alternate where
  param_groups : List ParamGroup
  deriving Repr, DecidableEq

/-- The body of SGD_Alternate.step for one parameter of a group with
hyperparameters lr and momentum:
if param.grad is None the parameter is skipped; otherwise, when the
buffer exists, M.mul_(pg["momentum"]).add_(param.grad * pg["lr"])
updates it in place (so the state dict sees the new M), when it does
not, M = pg["lr"] * param.grad is stored; finally param.sub_(M). -/
def stepParam (lr momentum : ℚ) (p : ParamEntry) : ParamEntry :=
  match p.grad with
  | none => p
  | some g =>
    match p.momentum_buffer with
    | some M0 =>
      let M : Tensor :=
        List.zipWith (fun a b => a + b) (M0.map (fun m => m * momentum)) (g.map (fun x => x * lr))
      { value := List.zipWith (fun a b => a - b) p.value M
        grad := p.grad
        momentum_buffer := some M }
    | none =>
      let M : Tensor := g.map (fun x => lr * x)
      { value := List.zipWith (fun a b => a - b) p.value M
        grad := p.grad
        momentum_buffer := some M }

/-- One parameter group processed by SGD_Alternate.step: the inner
`for param in pg["params"]` loop, reading pg["lr"] and pg["momentum"]
at the time step is invoked. -/
def groupStep (pg : ParamGroup) : ParamGroup :=
  { pg with params := pg.params.map (stepParam pg.lr pg.momentum) }

/-- SGD_Alternate.step: the outer `for pg in self.param_groups` loop. -/
def SGD_Alternate.step (o : SGD_Alternate) : SGD_Alternate :=
  { param_groups := o.param_groups.map groupStep }

/-- Writing the "lr" hyperparameter of a group,
as in `pg["lr"] = v` / `pg["lr"] *= .1`. -/
def ParamGroup.setLr (pg : ParamGroup) (v : ℚ) : ParamGroup :=
  { pg with lr := v }

/-- Writing the "momentum" hyperparameter of a group,
as in `optimizer.param_groups[0]["momentum"] = 0.8`. -/
def ParamGroup.setMomentum (pg : ParamGroup) (v : ℚ) : ParamGroup :=
  { pg with momentum := v }

/-- Modelled from the spec: `export_state()` (the notebook only calls
the external optimizer.state_dict()).  Per spec section 4.2 it is a
self-contained map parameter-id -> state record; here the record list
in parameter order, one per group. -/
def exportState (o : SGD_Alternate) : List (List (Option Tensor)) :=
  o.param_groups.map (fun pg => pg.params.map ParamEntry.momentum_buffer)

/-- Modelled from the spec: `import_state(snapshot)` (the notebook
delegates to external torch machinery).  Per spec section 4.2 it
replaces the current state wholesale with the snapshot's records. -/
def importState (o : SGD_Alternate) (s : List (List (Option Tensor))) : SGD_Alternate :=
  { param_groups :=
      List.zipWith
        (fun pg bs =>
          { pg with params :=
              List.zipWith (fun p b => { p with momentum_buffer := b }) pg.params bs })
        o.param_groups s }

/-- The momentum update exactly as the spec words it:
M = momentum * M_prev + lr * grad when a buffer exists,
M = lr * grad on first use. -/
def momentumUpdateSpec (lr momentum : ℚ) (Mprev : Option Tensor) (g : Tensor) : Tensor :=
  match Mprev with
  | some M0 => List.zipWith (fun m x => momentum * m + lr * x) M0 g
  | none => g.map (fun x => lr * x)

/-- The learning rate after n scheduler ticks under the notebook's
MultiStep decay (`if epoch in (6, 11): pg["lr"] *= .1`, equivalently
MultiStepLR(milestones, gamma)): tick t multiplies the current lr by
gamma when t is a milestone. -/
def multiStepLr (milestones : List ℕ) (gamma lr0 : ℚ) : ℕ → ℚ
  | 0 => lr0
  | n + 1 =>
    if (n + 1) ∈ milestones then multiStepLr milestones gamma lr0 n * gamma
    else multiStepLr milestones gamma lr0 n

/-- The checkpoint dictionary literal built in train_model:
{"parameters": model.state_dict(), "optimizer": optimizer.state_dict(),
 "epoch": epoch}. -/
def checkpoint_dict {α β : Type} (model_state : α) (optimizer_state : β) (epoch : ℕ) :
    List (String × (α ⊕ β ⊕ ℕ)) :=
  [("parameters", Sum.inl model_state),
   ("optimizer", Sum.inr (Sum.inl optimizer_state)),
   ("epoch", Sum.inr (Sum.inr epoch))]

/-- Adam hyperparameters (spec section 4.3). -/
structure AdamHyper where
  lr : ℚ
  beta1 : ℚ
  beta2 : ℚ
  eps : ℚ
  deriving Repr, DecidableEq

/-- One Adam-tracked parameter element: value, optional gradient, and
the state record {exp_avg, exp_avg_sq, step_count}, zero-initialized
before the first update.  Element-wise semantics: one tensor element. -/
structure AdamEntry where
  value : ℚ
  grad : Option ℚ
  exp_avg : ℚ
  exp_avg_sq : ℚ
  step_count : ℕ
  deriving Repr, DecidableEq

/-- Modelled from the spec: the Adam update rule (the notebook only
calls external torch.optim.Adam; its markdown cell gives informal
formulas).  Spec section 4.3: increment t; M = beta1*M_prev +
(1-beta1)*grad; V = beta2*V_prev + (1-beta2)*grad^2; bias-corrected
Mhat = M/(1-beta1^t), Vhat = V/(1-beta2^t); param = param -
lr*Mhat/(sqrt(Vhat)+eps); the state stores the uncorrected M, V and t.
The element-wise square root is abstract (sqrtFn), since a rational
carrier has no internal square root; every claim proved here holds for
any sqrtFn. -/
def adamStepParam (sqrtFn : ℚ → ℚ) (h : AdamHyper) (p : AdamEntry) : AdamEntry :=
  match p.grad with
  | none => p
  | some g =>
    let t := p.step_count + 1
    let M := h.beta1 * p.exp_avg + (1 - h.beta1) * g
    let V := h.beta2 * p.exp_avg_sq + (1 - h.beta2) * g ^ 2
    let Mhat := M / (1 - h.beta1 ^ t)
    let Vhat := V / (1 - h.beta2 ^ t)
    { value := p.value - h.lr * Mhat / (sqrtFn Vhat + h.eps)
      grad := p.grad
      exp_avg := M
      exp_avg_sq := V
      step_count := t }

/-- RMSProp hyperparameters (spec section 4.3). -/
structure RMSPropHyper where
  lr : ℚ
  alpha : ℚ
  eps : ℚ
  deriving Repr, DecidableEq

/-- One RMSProp-tracked parameter element: value, optional gradient,
and the state record {square_avg}, zero-initialized before the first
blend.  Element-wise semantics: one tensor element. -/
structure RMSPropEntry where
  value : ℚ
  grad : Option ℚ
  square_avg : ℚ
  deriving Repr, DecidableEq

/-- Modelled from the spec: the RMSProp update rule (the notebook only
calls external torch.optim.RMSprop; its markdown cell gives informal
formulas).  Spec section 4.3: V = alpha*V_prev + (1-alpha)*grad^2 with
V zero-initialized before the first blend; param = param -
lr*grad/(sqrt(V)+eps).  sqrtFn abstract as for Adam. -/
def rmspropStepParam (sqrtFn : ℚ → ℚ) (h : RMSPropHyper) (p : RMSPropEntry) : RMSPropEntry :=
  match p.grad with
  | none => p
  | some g =>
    let V := h.alpha * p.square_avg + (1 - h.alpha) * g ^ 2
    { value := p.value - h.lr * g / (sqrtFn V + h.eps)
      grad := p.grad
      square_avg := V }

/- Helper lemmas about element-wise list operations. -/

theorem zipWith_ext {α β γ : Type} (f g : α → β → γ) (h : ∀ a b, f a b = g a b) :
    ∀ (as : List α) (bs : List β), List.zipWith f as bs = List.zipWith g as bs := by
  intro as
  induction as with
  | nil => intro bs; rfl
  | cons a as ih =>
    intro bs
    cases bs with
    | nil => rfl
    | cons b bs => simp [List.zipWith, h a b, ih bs]

theorem zipWith_map_both {α β α2 β2 γ : Type} (f : α2 → β2 → γ) (m1 : α → α2) (m2 : β → β2) :
    ∀ (as : List α) (bs : List β),
      List.zipWith f (as.map m1) (bs.map m2) = List.zipWith (fun a b => f (m1 a) (m2 b)) as bs := by
  intro as
  induction as with
  | nil => intro bs; rfl
  | cons a as ih =>
    intro bs
    cases bs with
    | nil => rfl
    | cons b bs => simp [List.zipWith, ih bs]

theorem zipWith_map_snd {α β β2 γ : Type} (f : α → β2 → γ) (m : β → β2) :
    ∀ (as : List α) (bs : List β),
      List.zipWith f as (bs.map m) = List.zipWith (fun a b => f a (m b)) as bs := by
  intro as
  induction as with
  | nil => intro bs; rfl
  | cons a as ih =>
    intro bs
    cases bs with
    | nil => rfl
    | cons b bs => simp [List.zipWith, ih bs]

theorem zipWith_self_eq_map {α γ : Type} (f : α → α → γ) :
    ∀ l : List α, List.zipWith f l l = l.map (fun a => f a a) := by
  intro l
  induction l with
  | nil => rfl
  | cons a l ih => simp [List.zipWith, ih]

theorem zipWith_const_snd {α β γ : Type} (f : β → γ) :
    ∀ (as : List α) (bs : List β), as.length = bs.length →
      List.zipWith (fun _ b => f b) as bs = bs.map f := by
  intro as
  induction as with
  | nil =>
    intro bs h
    cases bs with
    | nil => rfl
    | cons b bs => simp at h
  | cons a as ih =>
    intro bs h
    cases bs with
    | nil => simp at h
    | cons b bs =>
      simp only [List.length_cons, Nat.succ_inj] at h
      simp [List.zipWith, ih bs h]

theorem stepParam_buffer_update (lr momentum : ℚ) (M0 g : Tensor) :
    List.zipWith (fun a b => a + b) (M0.map (fun m => m * momentum)) (g.map (fun x => x * lr)) =
      List.zipWith (fun m x => momentum * m + lr * x) M0 g := by
  rw [zipWith_map_both]
  exact zipWith_ext _ _ (fun a b => by ring) M0 g

/-- Claim C1: for a parameter with a non-null gradient,
SGD_Alternate.step computes M = momentum * M_prev + lr * grad when a
momentum buffer already exists (the optimizer has no weight-decay
term, i.e. weight_decay is zero) and M = lr * grad on first use, then
sets the parameter to param - M and stores M as the parameter's
momentum_buffer state record. -/
theorem sgd_momentum_update_correct (lr momentum : ℚ) (p : ParamEntry) (g : Tensor)
    (h : p.grad = some g) :
    (stepParam lr momentum p).momentum_buffer =
      some (momentumUpdateSpec lr momentum p.momentum_buffer g) ∧
    (stepParam lr momentum p).value =
      List.zipWith (fun a b => a - b) p.value
        (momentumUpdateSpec lr momentum p.momentum_buffer g) := by
  cases hb : p.momentum_buffer with
  | some M0 =>
    refine ⟨?_, ?_⟩ <;>
    · simp only [stepParam, h, hb, momentumUpdateSpec]
      rw [stepParam_buffer_update]
  | none =>
    refine ⟨?_, ?_⟩ <;> simp only [stepParam, h, hb, momentumUpdateSpec]

theorem sgd_momentum_update_correct_witness :
    (⟨[6], some [2], some [3]⟩ : ParamEntry).grad = some [2] ∧
    ((stepParam (1/2) (1/3) ⟨[6], some [2], some [3]⟩).momentum_buffer =
      some (momentumUpdateSpec (1/2) (1/3) (some [3]) [2]) ∧
     (stepParam (1/2) (1/3) ⟨[6], some [2], some [3]⟩).value =
      List.zipWith (fun a b => a - b) [6] (momentumUpdateSpec (1/2) (1/3) (some [3]) [2])) :=
  ⟨rfl, sgd_momentum_update_correct (1/2) (1/3) ⟨[6], some [2], some [3]⟩ [2] rfl⟩

/-- Claim C2: a parameter whose gradient is null when step() runs is
left bit-identical, and its state record is completely unchanged; the
same holds for the (spec-modelled) Adam rule, whose step_count does
not increment for such a parameter. -/
theorem step_skips_null_gradient (lr momentum : ℚ) (sqrtFn : ℚ → ℚ) (hy : AdamHyper)
    (p : ParamEntry) (q : AdamEntry) (hp : p.grad = none) (hq : q.grad = none) :
    stepParam lr momentum p = p ∧ adamStepParam sqrtFn hy q = q := by
  constructor
  · simp [stepParam, hp]
  · simp [adamStepParam, hq]

theorem step_skips_null_gradient_witness :
    (⟨[5], none, some [7]⟩ : ParamEntry).grad = none ∧
    (⟨3, none, 1, 2, 4⟩ : AdamEntry).grad = none ∧
    (stepParam (1/2) (9/10) ⟨[5], none, some [7]⟩ = ⟨[5], none, some [7]⟩ ∧
     adamStepParam id ⟨1/100, 9/10, 99/100, 1/1000⟩ ⟨3, none, 1, 2, 4⟩ = ⟨3, none, 1, 2, 4⟩) :=
  ⟨rfl, rfl,
    step_skips_null_gradient (1/2) (9/10) id ⟨1/100, 9/10, 99/100, 1/1000⟩
      ⟨[5], none, some [7]⟩ ⟨3, none, 1, 2, 4⟩ rfl rfl⟩

/-- Claim C3: with momentum = 0, SGD_Alternate.step produces exactly
the plain-SGD result param - lr * grad for every parameter with a
non-null gradient, on the first update (no buffer) and on every later
update (buffer present, of the gradient's shape). -/
theorem momentum_zero_is_plain_sgd (lr : ℚ) (p : ParamEntry) (g : Tensor)
    (h : p.grad = some g)
    (hlen : ∀ M0, p.momentum_buffer = some M0 → M0.length = g.length) :
    (stepParam lr 0 p).value = List.zipWith (fun a x => a - lr * x) p.value g := by
  cases hb : p.momentum_buffer with
  | none =>
    simp only [stepParam, h, hb]
    rw [zipWith_map_snd]
  | some M0 =>
    have hM : M0.length = g.length := hlen M0 hb
    simp only [stepParam, h, hb]
    rw [stepParam_buffer_update]
    have h1 : List.zipWith (fun m x => 0 * m + lr * x) M0 g =
        List.zipWith (fun _ x => lr * x) M0 g :=
      zipWith_ext _ _ (fun a b => by ring) M0 g
    rw [h1, zipWith_const_snd (fun x => lr * x) M0 g hM, zipWith_map_snd]

theorem momentum_zero_is_plain_sgd_witness :
    (⟨[6, 10], some [2, 4], some [3, 5]⟩ : ParamEntry).grad = some [2, 4] ∧
    (∀ M0, (⟨[6, 10], some [2, 4], some [3, 5]⟩ : ParamEntry).momentum_buffer = some M0 →
      M0.length = ([2, 4] : Tensor).length) ∧
    (stepParam (1/2) 0 ⟨[6, 10], some [2, 4], some [3, 5]⟩).value =
      List.zipWith (fun a x => a - (1/2) * x) [6, 10] [2, 4] :=
  ⟨rfl, fun M0 hM0 => by cases hM0; rfl,
    momentum_zero_is_plain_sgd (1/2) ⟨[6, 10], some [2, 4], some [3, 5]⟩ [2, 4] rfl
      (fun M0 hM0 => by cases hM0; rfl)⟩

/-- Claim C10: after step(), every parameter that had a non-null
gradient satisfies param_new = param_old - momentum_buffer, where
momentum_buffer is the buffer stored in the optimizer state by that
same step, on the first update and on every later update alike. -/
theorem step_value_eq_sub_stored_buffer (lr momentum : ℚ) (p : ParamEntry) (g : Tensor)
    (h : p.grad = some g) :
    ∃ M, (stepParam lr momentum p).momentum_buffer = some M ∧
      (stepParam lr momentum p).value = List.zipWith (fun a b => a - b) p.value M := by
  cases hb : p.momentum_buffer with
  | some M0 =>
    refine ⟨List.zipWith (fun a b => a + b) (M0.map (fun m => m * momentum))
      (g.map (fun x => x * lr)), ?_, ?_⟩ <;> simp only [stepParam, h, hb]
  | none =>
    refine ⟨g.map (fun x => lr * x), ?_, ?_⟩ <;> simp only [stepParam, h, hb]

theorem step_value_eq_sub_stored_buffer_witness :
    (⟨[6], some [2], none⟩ : ParamEntry).grad = some [2] ∧
    (∃ M, (stepParam (1/2) (9/10) ⟨[6], some [2], none⟩).momentum_buffer = some M ∧
      (stepParam (1/2) (9/10) ⟨[6], some [2], none⟩).value =
        List.zipWith (fun a b => a - b) [6] M) :=
  ⟨rfl, step_value_eq_sub_stored_buffer (1/2) (9/10) ⟨[6], some [2], none⟩ [2] rfl⟩

theorem multiStepLr_ge_eleven (n : ℕ) (h : 11 ≤ n) :
    multiStepLr [6, 11] (1/10) (1/10) n = 1/1000 := by
  induction n with
  | zero => exact absurd h (by omega)
  | succ m ih =>
    by_cases hm : 11 ≤ m
    · have hmem : (m + 1) ∉ ([6, 11] : List ℕ) := by
        simp only [List.mem_cons, List.not_mem_nil, or_false]
        omega
      simp only [multiStepLr, if_neg hmem]
      exact ih hm
    · have hm10 : m = 10 := by omega
      subst hm10
      norm_num [multiStepLr]

/-- Claim C4: the MultiStep schedule with milestones 6 and 11,
gamma = 1/10 and initial lr = 1/10 keeps lr = 1/10 through tick 5,
makes it 1/100 after tick 6 and through tick 10, and 1/1000 from tick
11 on; each milestone multiplies the lr established by the previous
mutation, so milestones compound multiplicatively. -/
theorem multistep_lr_schedule :
    (∀ n, n ≤ 5 → multiStepLr [6, 11] (1/10) (1/10) n = 1/10) ∧
    (∀ n, 6 ≤ n → n ≤ 10 → multiStepLr [6, 11] (1/10) (1/10) n = 1/100) ∧
    (∀ n, 11 ≤ n → multiStepLr [6, 11] (1/10) (1/10) n = 1/1000) ∧
    multiStepLr [6, 11] (1/10) (1/10) 6 = multiStepLr [6, 11] (1/10) (1/10) 5 * (1/10) ∧
    multiStepLr [6, 11] (1/10) (1/10) 11 = multiStepLr [6, 11] (1/10) (1/10) 10 * (1/10) := by
  refine ⟨?_, ?_, multiStepLr_ge_eleven, ?_, ?_⟩
  · intro n hn
    interval_cases n <;> norm_num [multiStepLr]
  · intro n h6 h10
    interval_cases n <;> norm_num [multiStepLr]
  · norm_num [multiStepLr]
  · norm_num [multiStepLr]

theorem multistep_lr_schedule_witness :
    (3 ≤ 5 ∧ multiStepLr [6, 11] (1/10) (1/10) 3 = 1/10) ∧
    (6 ≤ 8 ∧ 8 ≤ 10 ∧ multiStepLr [6, 11] (1/10) (1/10) 8 = 1/100) ∧
    (11 ≤ 12 ∧ multiStepLr [6, 11] (1/10) (1/10) 12 = 1/1000) :=
  ⟨⟨by norm_num, multistep_lr_schedule.1 3 (by norm_num)⟩,
   ⟨by norm_num, by norm_num, multistep_lr_schedule.2.1 8 (by norm_num) (by norm_num)⟩,
   ⟨by norm_num, multistep_lr_schedule.2.2.1 12 (by norm_num)⟩⟩

/-- Claim C5 (counterexample): the checkpoint snapshot built in
train_model does not have the key set {"optimizer", "scheduler",
"epoch"}: its keys are "parameters", "optimizer", "epoch" — it holds
the model state under "parameters" and has no "scheduler" entry. -/
theorem checkpoint_keys_counterexample :
    (checkpoint_dict (0 : ℕ) (0 : ℕ) 3).map Prod.fst = ["parameters", "optimizer", "epoch"] ∧
    "scheduler" ∉ (checkpoint_dict (0 : ℕ) (0 : ℕ) 3).map Prod.fst ∧
    "parameters" ∈ (checkpoint_dict (0 : ℕ) (0 : ℕ) 3).map Prod.fst := by
  refine ⟨rfl, by simp [checkpoint_dict], by simp [checkpoint_dict]⟩

/-- Claim C5 (amended): every checkpoint snapshot produced for the
serializer is a mapping with exactly the keys "parameters" (the model
state export), "optimizer" (the optimizer state export), and "epoch"
(an integer); there is no "scheduler" key. -/
theorem checkpoint_keys_amended (α β : Type) (model_state : α) (optimizer_state : β) (e : ℕ) :
    (checkpoint_dict model_state optimizer_state e).map Prod.fst =
      ["parameters", "optimizer", "epoch"] := rfl

/-- Claim C6: for a parameter with a non-null gradient, the Adam rule
increments the parameter's step counter t, computes
M = beta1 * M_prev + (1 - beta1) * grad and
V = beta2 * V_prev + (1 - beta2) * grad^2, stores those uncorrected
values as the new state, and sets the parameter to
param - lr * Mhat / (sqrt(Vhat) + eps) with Mhat = M / (1 - beta1^t)
and Vhat = V / (1 - beta2^t) used only for that update. -/
theorem adam_update_correct (sqrtFn : ℚ → ℚ) (hy : AdamHyper) (p : AdamEntry) (g : ℚ)
    (h : p.grad = some g) :
    (adamStepParam sqrtFn hy p).step_count = p.step_count + 1 ∧
    (adamStepParam sqrtFn hy p).exp_avg = hy.beta1 * p.exp_avg + (1 - hy.beta1) * g ∧
    (adamStepParam sqrtFn hy p).exp_avg_sq = hy.beta2 * p.exp_avg_sq + (1 - hy.beta2) * g ^ 2 ∧
    (adamStepParam sqrtFn hy p).value =
      p.value - hy.lr *
        ((hy.beta1 * p.exp_avg + (1 - hy.beta1) * g) / (1 - hy.beta1 ^ (p.step_count + 1))) /
        (sqrtFn ((hy.beta2 * p.exp_avg_sq + (1 - hy.beta2) * g ^ 2) /
          (1 - hy.beta2 ^ (p.step_count + 1))) + hy.eps) := by
  refine ⟨?_, ?_, ?_, ?_⟩ <;> simp only [adamStepParam, h]

theorem adam_update_correct_witness :
    (⟨2, some 3, 1, 1, 0⟩ : AdamEntry).grad = some 3 ∧
    ((adamStepParam id ⟨1/2, 1/3, 1/4, 1/5⟩ ⟨2, some 3, 1, 1, 0⟩).step_count = 0 + 1 ∧
     (adamStepParam id ⟨1/2, 1/3, 1/4, 1/5⟩ ⟨2, some 3, 1, 1, 0⟩).exp_avg =
       (1/3) * 1 + (1 - 1/3) * 3 ∧
     (adamStepParam id ⟨1/2, 1/3, 1/4, 1/5⟩ ⟨2, some 3, 1, 1, 0⟩).exp_avg_sq =
       (1/4) * 1 + (1 - 1/4) * 3 ^ 2 ∧
     (adamStepParam id ⟨1/2, 1/3, 1/4, 1/5⟩ ⟨2, some 3, 1, 1, 0⟩).value =
       2 - (1/2) * (((1/3) * 1 + (1 - 1/3) * 3) / (1 - (1/3) ^ (0 + 1))) /
         (id (((1/4) * 1 + (1 - 1/4) * 3 ^ 2) / (1 - (1/4) ^ (0 + 1))) + 1/5)) :=
  ⟨rfl, adam_update_correct id ⟨1/2, 1/3, 1/4, 1/5⟩ ⟨2, some 3, 1, 1, 0⟩ 3 rfl⟩

/-- Claim C7: for a parameter with a non-null gradient, the RMSProp
rule computes V = alpha * V_prev + (1 - alpha) * grad^2 (so with the
zero-initialized buffer the first blend gives (1 - alpha) * grad^2)
and subtracts lr * grad / (sqrt(V) + eps) from the parameter. -/
theorem rmsprop_update_correct (sqrtFn : ℚ → ℚ) (hy : RMSPropHyper) (p : RMSPropEntry) (g : ℚ)
    (h : p.grad = some g) :
    (rmspropStepParam sqrtFn hy p).square_avg = hy.alpha * p.square_avg + (1 - hy.alpha) * g ^ 2 ∧
    (p.square_avg = 0 →
      (rmspropStepParam sqrtFn hy p).square_avg = (1 - hy.alpha) * g ^ 2) ∧
    (rmspropStepParam sqrtFn hy p).value =
      p.value - hy.lr * g /
        (sqrtFn (hy.alpha * p.square_avg + (1 - hy.alpha) * g ^ 2) + hy.eps) := by
  refine ⟨?_, ?_, ?_⟩
  · simp only [rmspropStepParam, h]
  · intro h0
    simp only [rmspropStepParam, h, h0]
    ring
  · simp only [rmspropStepParam, h]

theorem rmsprop_update_correct_witness :
    (⟨5, some 2, 0⟩ : RMSPropEntry).grad = some 2 ∧
    ((rmspropStepParam id ⟨1/100, 9/10, 1/1000⟩ ⟨5, some 2, 0⟩).square_avg =
       (9/10) * 0 + (1 - 9/10) * 2 ^ 2 ∧
     ((0 : ℚ) = 0 →
       (rmspropStepParam id ⟨1/100, 9/10, 1/1000⟩ ⟨5, some 2, 0⟩).square_avg =
         (1 - 9/10) * 2 ^ 2) ∧
     (rmspropStepParam id ⟨1/100, 9/10, 1/1000⟩ ⟨5, some 2, 0⟩).value =
       5 - (1/100) * 2 / (id ((9/10) * 0 + (1 - 9/10) * 2 ^ 2) + 1/1000)) :=
  ⟨rfl, rmsprop_update_correct id ⟨1/100, 9/10, 1/1000⟩ ⟨5, some 2, 0⟩ 2 rfl⟩

/-- Claim C8: writing a hyperparameter into a parameter group changes
no parameter value and no state record (so updates already applied are
never changed retroactively), and the next step() call reads the
group's hyperparameter values as they stand at invocation time: after
writing lr (resp. momentum), the group's parameters are updated with
the new value and the other hyperparameter's current value. -/
theorem hyperparam_write_takes_effect_next_step (pg : ParamGroup) (v m : ℚ) :
    (pg.setLr v).params = pg.params ∧
    (pg.setMomentum m).params = pg.params ∧
    (groupStep (pg.setLr v)).params = pg.params.map (stepParam v pg.momentum) ∧
    (groupStep (pg.setMomentum m)).params = pg.params.map (stepParam pg.lr m) :=
  ⟨rfl, rfl, rfl, rfl⟩

theorem reinstall_buffers (l : List ParamEntry) :
    List.zipWith (fun p b => { p with momentum_buffer := b }) l
      (l.map ParamEntry.momentum_buffer) = l := by
  induction l with
  | nil => rfl
  | cons p l ih =>
    have hp : ({ p with momentum_buffer := p.momentum_buffer } : ParamEntry) = p := rfl
    simp only [List.map_cons, List.zipWith, hp, ih]

theorem reinstall_group_state (l : List ParamGroup) :
    List.zipWith
      (fun pg bs =>
        { pg with params :=
            List.zipWith (fun p b => { p with momentum_buffer := b }) pg.params bs })
      l (l.map (fun pg => pg.params.map ParamEntry.momentum_buffer)) = l := by
  induction l with
  | nil => rfl
  | cons pg l ih =>
    have h1 : ({ pg with
                 params := List.zipWith (fun p b => { p with momentum_buffer := b }) pg.params
                   (pg.params.map ParamEntry.momentum_buffer) } : ParamGroup) = pg := by
      rw [reinstall_buffers]
    simp only [List.map_cons, List.zipWith, h1, ih]

theorem importState_exportState (o : SGD_Alternate) : importState o (exportState o) = o := by
  unfold importState exportState
  rw [reinstall_group_state]

/-- Claim C9: for an optimizer with non-empty accumulated state,
import_state(export_state()) followed by step() on the same
parameter/gradient configuration yields exactly the same new parameter
values and state as step() without the round-trip. -/
theorem state_roundtrip_step_identical (o : SGD_Alternate)
    (_hne : ∃ pg ∈ o.param_groups, ∃ p ∈ pg.params, p.momentum_buffer.isSome) :
    SGD_Alternate.step (importState o (exportState o)) = SGD_Alternate.step o := by
  rw [importState_exportState]

theorem state_roundtrip_step_identical_witness :
    (∃ pg ∈ (SGD_Alternate.mk [⟨[⟨[1], some [2], some [3]⟩], 1/10, 9/10⟩]).param_groups,
      ∃ p ∈ pg.params, p.momentum_buffer.isSome) ∧
    SGD_Alternate.step
        (importState (SGD_Alternate.mk [⟨[⟨[1], some [2], some [3]⟩], 1/10, 9/10⟩])
          (exportState (SGD_Alternate.mk [⟨[⟨[1], some [2], some [3]⟩], 1/10, 9/10⟩]))) =
      SGD_Alternate.step (SGD_Alternate.mk [⟨[⟨[1], some [2], some [3]⟩], 1/10, 9/10⟩]) :=
  ⟨⟨⟨[⟨[1], some [2], some [3]⟩], 1/10, 9/10⟩, List.mem_cons_self _ _,
     ⟨[1], some [2], some [3]⟩, List.mem_cons_self _ _, rfl⟩,
   state_roundtrip_step_identical (SGD_Alternate.mk [⟨[⟨[1], some [2], some [3]⟩], 1/10, 9/10⟩])
     ⟨⟨[⟨[1], some [2], some [3]⟩], 1/10, 9/10⟩, List.mem_cons_self _ _,
      ⟨[1], some [2], some [3]⟩, List.mem_cons_self _ _, rfl⟩⟩
